import Mathlib

/-!
Verification of the scully static-site helper against its source.

Embedded components:
* route discovery (`addExtraRoutes`, `traverseAppRoutes`)
* the transfer-state service (state store `setState` and `getState`,
  the `nextUrl` navigation observer, and the rehydration driver built by
  `fetchTransferState`).

JavaScript strings are modelled as Lean `String`, with `split` and `trim`
re-implemented over the character list so that all definitions reduce in
the kernel.  JavaScript `undefined` is modelled by `Option.none`, promise
rejections and thrown errors by `Except.error`.
-/

namespace Scully

/-! ## JS string primitives -/

/-- Characters removed by `String.prototype.trim`, modelled by
`Char.isWhitespace`. -/
def trimL (l : List Char) : List Char :=
  ((l.dropWhile Char.isWhitespace).reverse.dropWhile Char.isWhitespace).reverse

/-- JS `s.trim()`. -/
def jsTrim (s : String) : String := String.mk (trimL s.data)

/-- Does `s` start with the separator `p`? -/
def startsWithL : List Char → List Char → Bool
  | [], _ => true
  | _ :: _, [] => false
  | p :: ps, c :: cs => p == c && startsWithL ps cs

/-- Fuel-driven splitting of a character list at every occurrence of a
non-empty separator, as `String.prototype.split` does.  The fuel is set to
the length of the input plus one, which is always sufficient. -/
def splitAux (sep : List Char) : Nat → List Char → List Char → List (List Char)
  | 0, s, acc => [acc.reverse ++ s]
  | _ + 1, [], acc => [acc.reverse]
  | fuel + 1, c :: cs, acc =>
    if startsWithL sep (c :: cs) then
      acc.reverse :: splitAux sep fuel (List.drop (sep.length - 1) cs) []
    else
      splitAux sep fuel cs (c :: acc)

/-- JS `s.split(sep)` for a non-empty separator. -/
def jsSplit (s sep : String) : List String :=
  (splitAux sep.data (s.data.length + 1) s.data []).map String.mk

/-! ## Route discovery (`routerPlugins/traverseAppRoutesPlugin`)

The static route parser, the file-system probing and the logger are
external collaborators; `traverseAppRoutes` is embedded as a function of
the statically parsed routes and the resolved extra routes, and the
logging of `addExtraRoutes` is reported as a Boolean flag. -/

/-- An element of an array produced by awaiting a deferred extra-routes
value: a string, or any other JS value (skipped by the flattening loop). -/
inductive JVal
  | jstr (s : String)
  | jother
deriving DecidableEq

/-- The value a deferred (Promise) extra-routes entry resolves to:
`string | string[]`. -/
inductive PResult
  | pstr (s : String)
  | parr (xs : List JVal)
deriving DecidableEq

/-- An element of a plain-array `extraRoutes` configuration:
`string | Promise<string | string[]>`, or any other JS value. -/
inductive ExtraItem
  | istr (s : String)
  | iprom (p : PResult)
  | iother
deriving DecidableEq

/-- The configured `scullyConfig.extraRoutes` value.  `cnone` is a falsy
configuration (absent); `cother` is a defined value that is neither a
string, an array, nor a thenable — for example the number 42. -/
inductive ExtraConfig
  | cnone
  | cstr (s : String)
  | cprom (p : PResult)
  | carr (items : List ExtraItem)
  | cother
deriving DecidableEq

/-- `workList.includes(r)` in the top-level deduplication loop.
JS `includes` compares with SameValueZero: strings by value, promises by
object reference.  Each syntactic promise occurrence in a configuration is
a distinct object, so only string entries can ever be recognised as
duplicates. -/
def itemIncludes (wl : List ExtraItem) (r : ExtraItem) : Bool :=
  match r with
  | .istr s => wl.any (fun x => match x with | .istr t => s == t | _ => false)
  | _ => false

/-- The `extraRoutes.forEach` loop: push each entry not already present. -/
def buildWorkList (items : List ExtraItem) : List ExtraItem :=
  items.foldl (fun wl r => if itemIncludes wl r then wl else wl ++ [r]) []

/-- The `for (const route of workList)` loop: keep strings, await promises
and keep their string results (every string of a resolved array),
silently skipping anything else. -/
def resolveWorkList (wl : List ExtraItem) : List String :=
  wl.foldl
    (fun res r =>
      match r with
      | .istr s => res ++ [s]
      | .iprom (.pstr s) => res ++ [s]
      | .iprom (.parr xs) =>
          res ++ xs.foldl
            (fun acc x => match x with | .jstr s => acc ++ [s] | .jother => acc) []
      | .iother => res)
    []

/-- `addExtraRoutes` from the route-discovery module.  The returned Boolean
records whether `logWarn` was called.  In the deferred-array branch the
source executes `workList.concat(outerResult)` and discards the returned
array (`concat` does not mutate), so the work list given to the resolution
loop stays empty. -/
def addExtraRoutes (cfg : ExtraConfig) : List String × Bool :=
  match cfg with
  | .cnone => ([], false)
  | .cstr s => ([s], false)
  | .cprom (.pstr s) => ([s], false)
  | .cprom (.parr _) => (resolveWorkList [], false)
  | .carr items => (resolveWorkList (buildWorkList items), false)
  | .cother => ([], true)

/-- `traverseAppRoutes`, as a function of the statically parsed routes and
the already-resolved extra routes (parsing and its fallback file probing
are external). -/
def traverseAppRoutes (routes extraRoutes : List String) : List String :=
  let allRoutes := routes ++ extraRoutes
  if (allRoutes.findIdx? (fun r => jsTrim r == "" || jsTrim r == "/")).isNone then
    allRoutes ++ ["/"]
  else
    allRoutes

/-! ## State store (`TransferStateService.setState` and `getState`) -/

/-- JS object property read: the value stored at key `k`, if any. -/
def objGet {α : Type} (o : List (String × α)) (k : String) : Option α :=
  match o.find? (fun p => p.1 == k) with
  | some p => some p.2
  | none => none

/-- JS object spread-with-override: every key of `o` keeps its value except
`k`, whose value becomes `v`; a fresh key is appended. -/
def objSet {α : Type} (o : List (String × α)) (k : String) (v : α) :
    List (String × α) :=
  if o.any (fun p => p.1 == k) then
    o.map (fun p => if p.1 == k then (k, v) else p)
  else
    o ++ [(k, v)]

/-- `setState`: the new snapshot is the spread of the current `stateBS`
value with `name` set to `val`.  Spreading the JS `undefined` snapshot
(`Option.none`) contributes no keys. -/
def setState {α : Type} (snap : Option (List (String × α))) (name : String)
    (val : α) : List (String × α) :=
  objSet (snap.getD []) name val

/-- The read performed by `getState` on one snapshot emission: `state$`
filters out the `undefined` snapshot, then `pluck name` projects the key.
`none` means no emission happens for this snapshot. -/
def getStateRead {α : Type} (snap : Option (List (String × α))) (name : String) :
    Option (Option α) :=
  match snap with
  | none => none
  | some o => some (objGet o name)

/-! ## The `nextUrl` navigation observer -/

/-- The sentinel written into `initialUrl` once the initial navigation has
been latched. -/
def initialStateDone : String := "__done__with__Initial__navigation__"

/-- One completed navigation: the `NavigationStart`/`NavigationEnd` pair,
with the end event's `urlAfterRedirects` (the empty string models a falsy
value). -/
structure NavPair where
  url : String
  urlAfterRedirects : String
deriving DecidableEq

/-- `ev.urlAfterRedirects || ev.url`. -/
def resolvedOf (p : NavPair) : String :=
  if p.urlAfterRedirects == "" then p.url else p.urlAfterRedirects

/-- The URL sequence emitted by the `nextUrl` pipe over a sequence of
completed navigations: a start event equal to the current `initialUrl`
field is swallowed and overwrites the field with `initialStateDone`;
every other navigation emits its resolved URL once the matching end event
arrives. -/
def nextUrlEmits (initialUrl : String) : List NavPair → List String
  | [] => []
  | p :: rest =>
    if p.url == initialUrl then nextUrlEmits initialStateDone rest
    else resolvedOf p :: nextUrlEmits initialUrl rest

/-! ## The rehydration driver (`fetchTransferState`) -/

/-- Snapshots carried by the transfer state; the values are opaque to the
driver and modelled as strings. -/
abbrev TState := List (String × String)

/-- `base(url)`: `url.split(sep).filter(nonblank)[0]`, the first non-blank
path segment; `none` models the JS `undefined` obtained on e.g. `"/"`. -/
def baseOf (url : String) : Option String :=
  ((jsSplit url "/").filter (fun part => jsTrim part != "")).head?

/-- The network requests the driver can issue.  `dataJson u` stands for
`fetchHttp(mergePaths(u, '/data.json'))`, `indexHtml u` for
`fetchHttp(u + '/index.html', 'text')`. -/
inductive Request
  | dataJson (url : String)
  | indexHtml (url : String)
deriving DecidableEq

/-- The environment answering the driver's requests.  `dataJson` returns
the parsed JSON body (or a rejection), `indexHtml` the raw text body, and
`jsonParse` models `JSON.parse` applied to an inline payload. -/
structure FetchEnv where
  dataJson : String → Except String TState
  indexHtml : String → Except String String
  jsonParse : String → Except String TState

/-- The literal marker opening the inline state payload. -/
def SCULLY_STATE_START : String := "/** ___SCULLY_STATE_START___ */"

/-- The literal marker closing the inline state payload. -/
def SCULLY_STATE_END : String := "/** ___SCULLY_STATE_END___ */"

/-- `html.split(START)[1].split(END)[0]`: the text between the two
sentinel markers.  `none` models the TypeError thrown when the start
marker is absent (`[1]` is then `undefined`). -/
def extractInline (html : String) : Option String :=
  match (jsSplit html SCULLY_STATE_START).get? 1 with
  | none => none
  | some rest => (jsSplit rest SCULLY_STATE_END).head?

/-- `readFromIndex`: fetch the target URL's `index.html` as text and parse
the slice between the sentinel markers as JSON. -/
def readFromIndex (env : FetchEnv) (url : String) : Except String TState :=
  match env.indexHtml url with
  | .error e => .error e
  | .ok html =>
    match extractInline html with
    | none => .error "TypeError: undefined has no method split"
    | some payload => env.jsonParse payload

/-- `readFromJson`: fetch the sibling `data.json` resource. -/
def readFromJson (env : FetchEnv) (url : String) : Except String TState :=
  env.dataJson url

/-- The request issued for `url` under the given deployment mode. -/
def requestOf (inlineOnly : Bool) (url : String) : Request :=
  if inlineOnly then .indexHtml url else .dataJson url

/-- The result the pipeline's `switchMap` produces for `url`. -/
def resolveUrl (env : FetchEnv) (inlineOnly : Bool) (url : String) :
    Except String TState :=
  if inlineOnly then readFromIndex env url else readFromJson env url

/-- The observable state of the transfer-state service. -/
structure Driver where
  /-- the `inlineOnly` flag set from `ScullyIO-injected`. -/
  inlineOnly : Bool
  /-- the `currentBaseUrl` field.  `some "//"` is the unreachable marker it
  is initialised and reset to; `none` models the JS `undefined` that
  `base` produces for a URL without non-blank segments. -/
  currentBaseUrl : Option String
  /-- whether the subscription opened by `fetchTransferState` is active. -/
  tracking : Bool
  /-- the latest value cached by the shared `shareReplay(1)` of `nextUrl`. -/
  lastUrl : Option String
  /-- every request issued, oldest first. -/
  fetchLog : List Request
  /-- every `stateBS.next` publication, oldest first; `none` is the
  transient `undefined` snapshot. -/
  published : List (Option TState)
  /-- number of `console.warn` calls from the `catchError` handler. -/
  warns : Nat
deriving DecidableEq

/-- The service state right after construction. -/
def initDriver (inlineOnly : Bool) : Driver :=
  { inlineOnly := inlineOnly
    currentBaseUrl := some "//"
    tracking := false
    lastUrl := none
    fetchLog := []
    published := []
    warns := 0 }

/-- One pass of the tracked pipeline for an emitted `url`: `switchMap`
issues the fetch; on success `tap` publishes the parsed snapshot; on any
failure `catchError` warns, publishes the empty object, and replaces the
stream with one that completes, so the `complete` handler resets
`currentBaseUrl` and the subscription ends. -/
def doFetch (env : FetchEnv) (d : Driver) (url : String) : Driver :=
  let d1 := { d with fetchLog := d.fetchLog ++ [requestOf d.inlineOnly url] }
  match resolveUrl env d.inlineOnly url with
  | .ok st => { d1 with published := d1.published ++ [some st] }
  | .error _ =>
    { d1 with
      published := d1.published ++ [some []]
      warns := d1.warns + 1
      tracking := false
      currentBaseUrl := some "//" }

/-- A completed, post-latch navigation to `url`: the `tap` inside `nextUrl`
publishes the transient `undefined` snapshot at `NavigationStart`, the
shared replay caches the resolved URL at `NavigationEnd`, and an active
tracked pipeline either fetches (its `takeWhile` predicate holds: same
base) or completes (`takeWhile` fails; the `complete` handler resets
`currentBaseUrl`). -/
def navStep (env : FetchEnv) (d : Driver) (url : String) : Driver :=
  let d1 := { d with published := d.published ++ [none], lastUrl := some url }
  if d1.tracking then
    if baseOf url == d1.currentBaseUrl then doFetch env d1 url
    else { d1 with tracking := false, currentBaseUrl := some "//" }
  else
    d1

/-- `fetchTransferState()`: await one timer tick, read the latest resolved
URL (the call suspends until one exists, so on a finite trace a call
before any emission does nothing), return early when that URL's base is
already being monitored, and otherwise record the base and subscribe.
`shareReplay(1)` immediately replays the latest URL to the new
subscription; its base equals the just-recorded `currentBaseUrl`, so
`takeWhile` passes and its data is fetched. -/
def fetchTransferState (env : FetchEnv) (d : Driver) : Driver :=
  match d.lastUrl with
  | none => d
  | some url =>
    let baseUrl := baseOf url
    if d.currentBaseUrl == baseUrl then d
    else doFetch env { d with currentBaseUrl := baseUrl, tracking := true } url

/-- The externally observable events of one client session: a completed
navigation, or a component calling `getState`, which invokes
`fetchTransferState`. -/
inductive Ev
  | nav (url : String)
  | callFetch
deriving DecidableEq

/-- Process one event. -/
def step (env : FetchEnv) (d : Driver) : Ev → Driver
  | .nav url => navStep env d url
  | .callFetch => fetchTransferState env d

/-- Run the driver over a sequence of events. -/
def run (env : FetchEnv) (inlineOnly : Bool) (evs : List Ev) : Driver :=
  evs.foldl (step env) (initDriver inlineOnly)


/-! ## Concrete environments used in counterexamples and witnesses -/

/-- An always-succeeding environment whose `data.json` answer records the
requested URL. -/
def stEnv : FetchEnv :=
  { dataJson := fun u => .ok [("u", u)]
    indexHtml := fun _ => .ok ""
    jsonParse := fun _ => .ok [] }

/-- An environment in which every request is rejected. -/
def failEnv : FetchEnv :=
  { dataJson := fun _ => .error "404"
    indexHtml := fun _ => .error "404"
    jsonParse := fun _ => .error "parse" }

/-- An environment serving an `index.html` that carries an inline payload
between the sentinel markers. -/
def inlEnv : FetchEnv :=
  { dataJson := fun _ => .ok []
    indexHtml := fun _ =>
      .ok ("<html>" ++ SCULLY_STATE_START ++ "PAYLOAD" ++ SCULLY_STATE_END ++ "</html>")
    jsonParse := fun p => if p == "PAYLOAD" then .ok [("k", "v")] else .error "parse" }

/-! ## Helper lemmas about the object model -/


theorem objGet_eq {α : Type} (o : List (String × α)) (k : String) :
    objGet o k = (o.find? (fun p => p.1 == k)).map Prod.snd := by
  unfold objGet
  cases o.find? (fun p => p.1 == k) <;> simp

theorem objGet_objSet_self {α : Type} (o : List (String × α)) (k : String) (v : α) :
    objGet (objSet o k v) k = some v := by
  unfold objSet
  by_cases h : o.any (fun p => p.1 == k) = true
  · rw [if_pos h]
    rw [objGet_eq, List.find?_map]
    have hpred : ((fun p : String × α => p.1 == k) ∘
        fun p : String × α => if p.1 == k then (k, v) else p)
        = fun p : String × α => p.1 == k := by
      funext p
      by_cases hk : p.1 = k <;> simp [hk]
    rw [hpred]
    rcases List.any_eq_true.mp h with ⟨p₀, hmem, hp₀⟩
    have hsome : (o.find? (fun p => p.1 == k)).isSome = true :=
      List.find?_isSome.mpr ⟨p₀, hmem, hp₀⟩
    rcases Option.isSome_iff_exists.mp hsome with ⟨q, hq⟩
    have hqk := List.find?_some hq
    have hq1 : q.1 = k := by simpa using hqk
    rw [hq]
    simp [hq1]
  · rw [if_neg h]
    rw [objGet_eq, List.find?_append]
    have hnone : o.find? (fun p => p.1 == k) = none := by
      rw [List.find?_eq_none]
      intro x hx hpx
      exact h (List.any_eq_true.mpr ⟨x, hx, hpx⟩)
    have hone : List.find? (fun p : String × α => p.1 == k) [(k, v)] = some (k, v) :=
      List.find?_cons_of_pos _ (by simp)
    rw [hnone, hone]
    simp

theorem objGet_objSet_ne {α : Type} (o : List (String × α)) (k k' : String) (v : α)
    (hne : k' ≠ k) :
    objGet (objSet o k v) k' = objGet o k' := by
  unfold objSet
  by_cases h : o.any (fun p => p.1 == k) = true
  · rw [if_pos h]
    rw [objGet_eq, List.find?_map, objGet_eq]
    have hpred : ((fun p : String × α => p.1 == k') ∘
        fun p : String × α => if p.1 == k then (k, v) else p)
        = fun p : String × α => p.1 == k' := by
      funext p
      by_cases hk : p.1 = k
      · simp [hk, Ne.symm hne, hne]
      · simp [hk]
    rw [hpred]
    cases hq : o.find? (fun p => p.1 == k') with
    | none => simp
    | some q =>
      have hqk' := List.find?_some hq
      have hq1 : q.1 = k' := by simpa using hqk'
      have hqk : ¬ q.1 = k := by
        rw [hq1]; exact hne
      simp [hqk]
  · rw [if_neg h]
    rw [objGet_eq, List.find?_append, objGet_eq]
    have hb : (k == k') = false := beq_eq_false_iff_ne.mpr (Ne.symm hne)
    have hone : List.find? (fun p : String × α => p.1 == k') [(k, v)] = none := by
      simp [List.find?, hb]
    rw [hone]
    cases o.find? (fun p : String × α => p.1 == k') <;> simp

/-! ## Claim theorems: route discovery and state store -/

/-- C9: `addExtraRoutes` maps the single string "a" to ["a"]; the plain
array ["a","b","a"] to ["a","b"], the top-level duplicate removed; and a
configured value that is neither a string, an array nor a deferred value
(for example the number 42) to the empty list, with a warning logged. -/
theorem addExtraRoutes_basic_shapes :
    addExtraRoutes (.cstr "a") = (["a"], false) ∧
      addExtraRoutes (.carr [.istr "a", .istr "b", .istr "a"]) = (["a", "b"], false) ∧
      addExtraRoutes .cother = ([], true) := by
  refine ⟨by decide, by decide, by decide⟩

/-- C1: evaluating `addExtraRoutes` on a single deferred value resolving to
the array ["c","d"] returns [] (with no warning), not ["c","d"]: the
source discards the array returned by `workList.concat(outerResult)`
(`concat` does not mutate its receiver), so the resolution loop runs over
an empty work list. -/
theorem addExtraRoutes_deferred_array_dropped :
    addExtraRoutes (.cprom (.parr [.jstr "c", .jstr "d"])) = ([], false) := by
  decide

/-- C7: after `setState k v` on a defined snapshot, reading key `k` yields
`v`, and every other key reads exactly as it did in the previous
snapshot. -/
theorem setState_then_read {α : Type} (o : List (String × α)) (k : String) (v : α) :
    objGet (setState (some o) k v) k = some v ∧
      ∀ k', k' ≠ k → objGet (setState (some o) k v) k' = objGet o k' := by
  constructor
  · simpa [setState] using objGet_objSet_self o k v
  · intro k' h
    simpa [setState] using objGet_objSet_ne o k k' v h

/-- Witness for C7 at a concrete snapshot and keys. -/
theorem setState_then_read_witness :
    objGet (setState (some [("a", 1)]) "b" 2) "b" = some 2 ∧
      objGet (setState (some [("a", 1)]) "b" 2) "a" = objGet [("a", 1)] "a" :=
  ⟨(setState_then_read [("a", 1)] "b" 2).1,
   (setState_then_read [("a", 1)] "b" 2).2 "a" (by decide)⟩

/-- C10: `setState name val` while the current snapshot is the transient
`undefined` one is total (the spread of `undefined` contributes no keys,
and nothing is thrown: `setState` is a total function) and publishes
exactly the single-key snapshot; keys of the last defined snapshot are not
carried over. -/
theorem setState_on_undefined {α : Type} (k : String) (v : α) :
    setState (none : Option (List (String × α))) k v = [(k, v)] ∧
      ∀ k', k' ≠ k →
        objGet (setState (none : Option (List (String × α))) k v) k' = none := by
  have h1 : setState (none : Option (List (String × α))) k v = [(k, v)] := by
    simp [setState, objSet]
  refine ⟨h1, ?_⟩
  intro k' h
  rw [h1]
  have hb : (k == k') = false := beq_eq_false_iff_ne.mpr (Ne.symm h)
  simp [objGet, List.find?, hb]

/-- Witness for C10 at a concrete key and value. -/
theorem setState_on_undefined_witness :
    setState (none : Option (List (String × Nat))) "x" 5 = [("x", 5)] ∧
      objGet (setState (none : Option (List (String × Nat))) "x" 5) "y" = none :=
  ⟨(setState_on_undefined "x" 5).1,
   (setState_on_undefined "x" 5).2 "y" (by decide)⟩

/-- C8: the list produced by `traverseAppRoutes` is the statically parsed
routes followed by the resolved extra routes, with the root path appended
at the end exactly when no entry trims to the root path or the empty
string; in particular the root path is never appended as a duplicate when
already present. -/
theorem traverseAppRoutes_root (routes extra : List String) :
    (traverseAppRoutes routes extra = routes ++ extra ++ ["/"] ↔
      ∀ r ∈ routes ++ extra, jsTrim r ≠ "" ∧ jsTrim r ≠ "/") ∧
    ("/" ∈ routes ++ extra → traverseAppRoutes routes extra = routes ++ extra) := by
  have hcond : (((routes ++ extra).findIdx?
        (fun r => jsTrim r == "" || jsTrim r == "/")).isNone = true) ↔
      ∀ r ∈ routes ++ extra, jsTrim r ≠ "" ∧ jsTrim r ≠ "/" := by
    rw [Option.isNone_iff_eq_none, List.findIdx?_eq_none_iff]
    constructor
    · intro h r hr
      have hb := h r hr
      constructor
      · intro he
        simp [he] at hb
      · intro he
        simp [he] at hb
    · intro h r hr
      have hb := h r hr
      have h1 : (jsTrim r == "") = false := beq_eq_false_iff_ne.mpr hb.1
      have h2 : (jsTrim r == "/") = false := beq_eq_false_iff_ne.mpr hb.2
      simp [h1, h2]
  constructor
  · constructor
    · intro heq
      by_contra hnot
      have hne : ¬ (((routes ++ extra).findIdx?
          (fun r => jsTrim r == "" || jsTrim r == "/")).isNone = true) := by
        intro hh
        exact hnot (hcond.mp hh)
      unfold traverseAppRoutes at heq
      rw [if_neg hne] at heq
      have hlen := congrArg List.length heq
      simp at hlen
    · intro h
      unfold traverseAppRoutes
      rw [if_pos (hcond.mpr h), List.append_assoc]
  · intro hmem
    have hne : ¬ (((routes ++ extra).findIdx?
        (fun r => jsTrim r == "" || jsTrim r == "/")).isNone = true) := by
      rw [Option.isNone_iff_eq_none, List.findIdx?_eq_none_iff]
      intro hall
      have hb := hall "/" hmem
      exact absurd hb (by decide)
    unfold traverseAppRoutes
    rw [if_neg hne]

/-- Witness for C8: the root is appended when absent and left alone when
present. -/
theorem traverseAppRoutes_root_witness :
    traverseAppRoutes ["a"] ["b"] = ["a"] ++ ["b"] ++ ["/"] ∧
      traverseAppRoutes ["/"] [] = ["/"] ++ [] :=
  ⟨(traverseAppRoutes_root ["a"] ["b"]).1.mpr (by decide),
   (traverseAppRoutes_root ["/"] []).2 (by decide)⟩

/-! ## Claim theorems: the navigation observer -/

/-- C4 counterexample: with initial URL "/a" and the navigations
"/b" then "/a", the code emits only ["/b"], although the claim — exclude
the first navigation exactly when its target equals the initial URL, and
always emit all later navigations — demands ["/b", "/a"]: the latch fires
on the first navigation whose target matches, not only on the very first
navigation. -/
theorem nextUrl_latch_not_first_only :
    nextUrlEmits "/a" [⟨"/b", "/b"⟩, ⟨"/a", "/a"⟩] = ["/b"] ∧
      (["/b"] : List String) ≠ ["/b", "/a"] := by
  refine ⟨by decide, by decide⟩

/-- Once the latch has been consumed (`initialUrl` holds the sentinel), no
further navigation is swallowed, provided no target equals the
sentinel. -/
theorem nextUrlEmits_done (navs : List NavPair)
    (h : ∀ p ∈ navs, p.url ≠ initialStateDone) :
    nextUrlEmits initialStateDone navs = navs.map resolvedOf := by
  induction navs with
  | nil => rfl
  | cons p rest ih =>
    have hp : ¬ (p.url == initialStateDone) = true := by
      simp [h p (List.mem_cons_self p rest)]
    show (if p.url == initialStateDone then nextUrlEmits initialStateDone rest
      else resolvedOf p :: nextUrlEmits initialStateDone rest) = _
    rw [if_neg hp, List.map_cons]
    exact congrArg (resolvedOf p :: ·) (ih fun q hq => h q (List.mem_cons_of_mem p hq))

/-- C4 amended: over any sequence of completed navigations none of which
targets the internal sentinel, the emitted sequence is the resolved URLs
of all navigations except the first one whose start URL equals the
configured initial URL (if any). -/
theorem nextUrlEmits_erase_first_initial (init : String) (navs : List NavPair)
    (h : ∀ p ∈ navs, p.url ≠ initialStateDone) :
    nextUrlEmits init navs
      = (navs.eraseP (fun p => p.url == init)).map resolvedOf := by
  induction navs with
  | nil => rfl
  | cons p rest ih =>
    by_cases hp : p.url = init
    · have hb : (p.url == init) = true := beq_iff_eq.mpr hp
      have herase : List.eraseP (fun q : NavPair => q.url == init) (p :: rest)
          = rest := List.eraseP_cons_of_pos hb
      rw [herase]
      show (if p.url == init then nextUrlEmits initialStateDone rest
        else resolvedOf p :: nextUrlEmits init rest) = _
      rw [if_pos hb]
      exact nextUrlEmits_done rest fun q hq => h q (List.mem_cons_of_mem p hq)
    · have hb : ¬ (p.url == init) = true := by simp [hp]
      have herase : List.eraseP (fun q : NavPair => q.url == init) (p :: rest)
          = p :: List.eraseP (fun q : NavPair => q.url == init) rest :=
        List.eraseP_cons_of_neg hb
      rw [herase]
      show (if p.url == init then nextUrlEmits initialStateDone rest
        else resolvedOf p :: nextUrlEmits init rest) = _
      rw [if_neg hb, List.map_cons]
      exact congrArg (resolvedOf p :: ·)
        (ih fun q hq => h q (List.mem_cons_of_mem p hq))

/-- Witness for the amended C4 at a concrete navigation sequence. -/
theorem nextUrlEmits_erase_first_initial_witness :
    nextUrlEmits "/a" [⟨"/a", "/a"⟩, ⟨"/b", "/c"⟩, ⟨"/a", "/a"⟩]
      = (([⟨"/a", "/a"⟩, ⟨"/b", "/c"⟩, ⟨"/a", "/a"⟩] : List NavPair).eraseP
          (fun p => p.url == "/a")).map resolvedOf :=
  nextUrlEmits_erase_first_initial "/a" _ (by decide)

/-! ## Claim theorems: the rehydration driver -/

/-- C6: when resolving the state for the navigated URL fails (fetch
rejection, JSON parse error or missing sentinel markers — any
`Except.error` result of `resolveUrl`), the driver publishes the empty
object as the new snapshot and counts one warning.  The model is a total
function, so no exception escapes. -/
theorem driver_failure_publishes_empty (env : FetchEnv) (inl : Bool) (u e : String)
    (hno : (some "//" : Option String) ≠ baseOf u)
    (herr : resolveUrl env inl u = .error e) :
    (run env inl [.nav u, .callFetch]).published = [none, some []] ∧
      (run env inl [.nav u, .callFetch]).warns = 1 := by
  have hb : ((some "//" : Option String) == baseOf u) = false :=
    beq_eq_false_iff_ne.mpr hno
  constructor <;>
    simp [run, step, navStep, fetchTransferState, doFetch, initDriver, hb, herr]

/-- Witness for C6: a rejected `data.json` request. -/
theorem driver_failure_publishes_empty_witness :
    (run failEnv false [.nav "/x", .callFetch]).published = [none, some []] ∧
      (run failEnv false [.nav "/x", .callFetch]).warns = 1 :=
  driver_failure_publishes_empty failEnv false "/x" "404" (by decide) (by rfl)

/-- C5 counterexample: on two consecutive same-base navigations the claim
demands the publish log [undefined-free]: the second navigation must not
publish the transient undefined snapshot.  The code does publish it: the
log of the longer trace extends the shorter one by [none, new data], not
by [new data] alone. -/
theorem driver_same_base_publishes_undefined :
    (run stEnv false [.nav "/blog/1", .callFetch, .nav "/blog/2"]).published
        = [none, some [("u", "/blog/1")], none, some [("u", "/blog/2")]] ∧
      (run stEnv false [.nav "/blog/1", .callFetch]).published
        = [none, some [("u", "/blog/1")]] ∧
      (run stEnv false [.nav "/blog/1", .callFetch, .nav "/blog/2"]).published
        ≠ [none, some [("u", "/blog/1")], some [("u", "/blog/2")]] := by
  refine ⟨by decide, by decide, by decide⟩

/-- C5 amended: a resolved URL whose base equals the tracked base leaves
`currentBaseUrl` untouched and the subscription active (the early-return
guard takes no new action), but the navigation observer still publishes
the transient undefined snapshot, after which the existing pipeline
fetches and publishes the new URL's data. -/
theorem driver_same_base_keeps_tracking (env : FetchEnv) (inl : Bool)
    (u1 u2 : String) (st1 st2 : TState)
    (hno : (some "//" : Option String) ≠ baseOf u1)
    (hbase : baseOf u1 = baseOf u2)
    (hok1 : resolveUrl env inl u1 = .ok st1)
    (hok2 : resolveUrl env inl u2 = .ok st2) :
    (run env inl [.nav u1, .callFetch, .nav u2]).currentBaseUrl
        = (run env inl [.nav u1, .callFetch]).currentBaseUrl ∧
      (run env inl [.nav u1, .callFetch, .nav u2]).tracking = true ∧
      (run env inl [.nav u1, .callFetch, .nav u2]).published
        = (run env inl [.nav u1, .callFetch]).published ++ [none, some st2] := by
  have hb : ((some "//" : Option String) == baseOf u1) = false :=
    beq_eq_false_iff_ne.mpr hno
  have hguard : (baseOf u2 == baseOf u1) = true := beq_iff_eq.mpr hbase.symm
  refine ⟨?_, ?_, ?_⟩ <;>
    simp [run, step, navStep, fetchTransferState, doFetch, initDriver,
      hb, hok1, hok2, hguard]

/-- Witness for the amended C5 at a concrete same-base navigation pair. -/
theorem driver_same_base_keeps_tracking_witness :
    (run stEnv false [.nav "/blog/1", .callFetch, .nav "/blog/2"]).currentBaseUrl
        = (run stEnv false [.nav "/blog/1", .callFetch]).currentBaseUrl ∧
      (run stEnv false [.nav "/blog/1", .callFetch, .nav "/blog/2"]).tracking = true ∧
      (run stEnv false [.nav "/blog/1", .callFetch, .nav "/blog/2"]).published
        = (run stEnv false [.nav "/blog/1", .callFetch]).published
            ++ [none, some [("u", "/blog/2")]] :=
  driver_same_base_keeps_tracking stEnv false "/blog/1" "/blog/2"
    [("u", "/blog/1")] [("u", "/blog/2")] (by decide) (by decide) (by rfl) (by rfl)

/-- C3 counterexample: with `inlineStateOnly` set, navigating to "/blog/1"
makes the driver issue the network request for "/blog/1/index.html" — the
fetch log is not empty, contradicting the claim that the payload is read
from the currently loaded document rather than fetched over the
network. -/
theorem driver_inline_mode_fetches_network :
    (run inlEnv true [.nav "/blog/1", .callFetch]).fetchLog
        = [Request.indexHtml "/blog/1"] ∧
      (run inlEnv true [.nav "/blog/1", .callFetch]).fetchLog ≠ [] := by
  refine ⟨by decide, by decide⟩

/-- C3 amended: with `inlineStateOnly` set, the driver fetches the target
route's `index.html` as text over the network, slices it between the
literal start and end sentinel markers, parses that slice as JSON, and
publishes the result as the new snapshot — instead of requesting the
`data.json` side-file. -/
theorem driver_inline_mode_reads_fetched_index (env : FetchEnv)
    (u html payload : String) (st : TState)
    (hno : (some "//" : Option String) ≠ baseOf u)
    (hhtml : env.indexHtml u = .ok html)
    (hext : extractInline html = some payload)
    (hparse : env.jsonParse payload = .ok st) :
    (run env true [.nav u, .callFetch]).fetchLog = [Request.indexHtml u] ∧
      (run env true [.nav u, .callFetch]).published = [none, some st] := by
  have hb : ((some "//" : Option String) == baseOf u) = false :=
    beq_eq_false_iff_ne.mpr hno
  have hres : resolveUrl env true u = .ok st := by
    simp [resolveUrl, readFromIndex, hhtml, hext, hparse]
  constructor <;>
    simp [run, step, navStep, fetchTransferState, doFetch, initDriver,
      hb, hres, requestOf]

/-- Witness for the amended C3: a concrete page with an inline payload. -/
theorem driver_inline_mode_reads_fetched_index_witness :
    (run inlEnv true [.nav "/blog/1", .callFetch]).fetchLog
        = [Request.indexHtml "/blog/1"] ∧
      (run inlEnv true [.nav "/blog/1", .callFetch]).published
        = [none, some [("k", "v")]] :=
  driver_inline_mode_reads_fetched_index inlEnv "/blog/1"
    ("<html>" ++ SCULLY_STATE_START ++ "PAYLOAD" ++ SCULLY_STATE_END ++ "</html>")
    "PAYLOAD" [("k", "v")] (by decide) (by rfl) (by decide) (by rfl)

/-- For a fixed deployment mode, distinct URLs yield distinct requests. -/
theorem requestOf_ne (inl : Bool) (u1 u2 : String) (h : u1 ≠ u2) :
    requestOf inl u1 ≠ requestOf inl u2 := by
  cases inl <;> simp [requestOf, h]

/-- C2: over the canonical trace of two consecutive same-base navigations,
each followed by a `getState`-triggered `fetchTransferState` call, the
second URL's state is requested at most once — the early-return guard
makes the second `fetchTransferState` call a no-op, so no redundant fetch
is issued for the second URL. -/
theorem driver_no_redundant_fetch (env : FetchEnv) (inl : Bool) (u1 u2 : String)
    (st2 : TState) (hbase : baseOf u1 = baseOf u2) (hne : u1 ≠ u2)
    (hok : resolveUrl env inl u2 = .ok st2) :
    ((run env inl [.nav u1, .callFetch, .nav u2, .callFetch]).fetchLog).count
      (requestOf inl u2) ≤ 1 := by
  have hreq : (requestOf inl u2 == requestOf inl u1) = false :=
    beq_eq_false_iff_ne.mpr (Ne.symm (requestOf_ne inl u1 u2 hne))
  by_cases hA : (some "//" : Option String) = baseOf u1
  · have hAb : ((some "//" : Option String) == baseOf u1) = true := beq_iff_eq.mpr hA
    have hAb2 : ((some "//" : Option String) == baseOf u2) = true :=
      beq_iff_eq.mpr (by rw [← hbase]; exact hA)
    simp [run, step, navStep, fetchTransferState, initDriver, hAb, hAb2]
  · have hAb : ((some "//" : Option String) == baseOf u1) = false :=
      beq_eq_false_iff_ne.mpr hA
    cases hr1 : resolveUrl env inl u1 with
    | ok st1 =>
      have hguard : (baseOf u2 == baseOf u1) = true := beq_iff_eq.mpr hbase.symm
      have hguard2 : (baseOf u1 == baseOf u2) = true := beq_iff_eq.mpr hbase
      simp [run, step, navStep, fetchTransferState, doFetch, initDriver,
        hAb, hr1, hok, hguard, hguard2, List.count_cons, hreq]
      exact requestOf_ne inl u1 u2 hne
    | error e =>
      by_cases hC : (some "//" : Option String) = baseOf u2
      · have hCb : ((some "//" : Option String) == baseOf u2) = true :=
          beq_iff_eq.mpr hC
        simp [run, step, navStep, fetchTransferState, doFetch, initDriver,
          hAb, hr1, hCb, List.count_cons, hreq]
        split <;> omega
      · have hCb : ((some "//" : Option String) == baseOf u2) = false :=
          beq_eq_false_iff_ne.mpr hC
        simp [run, step, navStep, fetchTransferState, doFetch, initDriver,
          hAb, hr1, hCb, hok, List.count_cons, hreq]
        exact requestOf_ne inl u1 u2 hne

/-- Witness for C2 at a concrete same-base navigation pair. -/
theorem driver_no_redundant_fetch_witness :
    ((run stEnv false [.nav "/blog/1", .callFetch, .nav "/blog/2", .callFetch]).fetchLog).count
      (requestOf false "/blog/2") ≤ 1 :=
  driver_no_redundant_fetch stEnv false "/blog/1" "/blog/2" [("u", "/blog/2")]
    (by decide) (by decide) (by rfl)

end Scully
